import Mathlib

/-!
Shallow embedding of the rba GBA-emulator crates that the verified claims
concern: the generic bit-field primitives (crates/arm7tdmi/src/bit.rs), the
program status register model (crates/arm7tdmi/src/psr.rs), the CpuState,
CpuMode and Cond enumerations (crates/arm7tdmi/src/lib.rs), and the
cartridge header parser (crates/cartridge/src/header.rs, load.rs).

Machine integers of width `w` are modelled as natural numbers below `2 ^ w`;
Rust's truncating shifts are rendered with an explicit `% 2 ^ w`, and the
bitwise complement `!m` of a `w`-bit word as `(2 ^ w - 1) ^^^ m`.  A Rust
panic (the fatal invalid-mode path) is modelled as `Option.none`; Rust
`Result` is modelled as `Except`.
-/

namespace Rba

/-! Bit-field primitives, from the `BitIndex` trait in bit.rs.  The trait is
generic over the unsigned integer type; here the width `w` (the trait's
`NBITS` constant) is an explicit parameter. -/

namespace BitIndex

/-- Rust `fn bit<const BIT: usize>(self) -> bool { self & (1 << BIT) != 0 }`.
The test does not use the width beyond the debug assertion. -/
def bit (i x : Nat) : Bool :=
  x &&& (1 <<< i) != 0

/-- Rust `fn set_bit<const BIT: usize>(self, state: bool) -> Self`:
`let mask = 1 << BIT; if state { self | mask } else { self & !mask }`,
with `!mask` the `w`-bit complement. -/
def set_bit (w i x : Nat) (state : Bool) : Nat :=
  let mask := 1 <<< i
  if state then x ||| mask else x &&& ((2 ^ w - 1) ^^^ mask)

/-- Rust `fn bits<const START: usize, const END: usize>(self) -> Self`:
`let lsh = NBITS - END; let rsh = lsh + START; (self << lsh) >> rsh`,
the left shift truncating to `w` bits. -/
def bits (w start stop x : Nat) : Nat :=
  let lsh := w - stop
  let rsh := lsh + start
  ((x <<< lsh) % 2 ^ w) >>> rsh

/-- Rust `fn set_bits<const START: usize, const END: usize>(self, value: Self)`:
`let mask = Self::MAX.bits::<START, END>() << START; (self & !mask) | (value << START)`,
shifts truncating to `w` bits and `!mask` the `w`-bit complement. -/
def set_bits (w start stop x value : Nat) : Nat :=
  let mask := bits w start stop (2 ^ w - 1) <<< start
  (x &&& ((2 ^ w - 1) ^^^ mask)) ||| ((value <<< start) % 2 ^ w)

end BitIndex

/-! Enumerations from crates/arm7tdmi/src/lib.rs. -/

/-- Cpu state: ARM (32-bit opcodes) or THUMB (16-bit opcodes). -/
inductive CpuState where
  | Arm
  | Thumb
deriving DecidableEq, Fintype

/-- Discriminant of `CpuState` (`repr(u8)`: Arm = 0, Thumb = 1). -/
def CpuState.toNat : CpuState → Nat
  | .Arm => 0
  | .Thumb => 1

/-- Rust `impl From<bool> for CpuState` in psr.rs:
`if state { Thumb } else { Arm }`. -/
def CpuState.ofBool (state : Bool) : CpuState :=
  if state then .Thumb else .Arm

/-- Rust `impl From<CpuState> for bool` in psr.rs:
`Arm => false, Thumb => true`. -/
def CpuState.toBool : CpuState → Bool
  | .Arm => false
  | .Thumb => true

/-- Cpu mode, `repr(u8)` with the seven architecture-defined 5-bit codes. -/
inductive CpuMode where
  | User
  | Fiq
  | Irq
  | Supervisor
  | Abort
  | Undefined
  | System
deriving DecidableEq, Fintype

/-- Discriminant of `CpuMode` from its `repr(u8)` declaration. -/
def CpuMode.toNat : CpuMode → Nat
  | .User => 0b10000
  | .Fiq => 0b10001
  | .Irq => 0b10010
  | .Supervisor => 0b10011
  | .Abort => 0b10111
  | .Undefined => 0b11011
  | .System => 0b11111

/-- The `IntEnum`-derived `CpuMode::try_from(u8)`: succeeds exactly on the
seven declared discriminants. -/
def CpuMode.tryFrom (n : Nat) : Option CpuMode :=
  match n with
  | 0b10000 => some .User
  | 0b10001 => some .Fiq
  | 0b10010 => some .Irq
  | 0b10011 => some .Supervisor
  | 0b10111 => some .Abort
  | 0b11011 => some .Undefined
  | 0b11111 => some .System
  | _ => none

/-- Condition codes, `repr(u8)` with discriminants 0x0 to 0xF. -/
inductive Cond where
  | EQ
  | NE
  | HS
  | LO
  | MI
  | PL
  | VS
  | VC
  | HI
  | LS
  | GE
  | LT
  | GT
  | LE
  | AL
  | Invalid
deriving DecidableEq, Fintype

/-- Discriminant of `Cond` from its `repr(u8)` declaration. -/
def Cond.toNat : Cond → Nat
  | .EQ => 0x0
  | .NE => 0x1
  | .HS => 0x2
  | .LO => 0x3
  | .MI => 0x4
  | .PL => 0x5
  | .VS => 0x6
  | .VC => 0x7
  | .HI => 0x8
  | .LS => 0x9
  | .GE => 0xA
  | .LT => 0xB
  | .GT => 0xC
  | .LE => 0xD
  | .AL => 0xE
  | .Invalid => 0xF

/-- The `IntEnum`-derived `Cond::try_from(u8)`: succeeds exactly on the
sixteen declared discriminants 0x0 to 0xF. -/
def Cond.tryFrom (n : Nat) : Option Cond :=
  match n with
  | 0x0 => some .EQ
  | 0x1 => some .NE
  | 0x2 => some .HS
  | 0x3 => some .LO
  | 0x4 => some .MI
  | 0x5 => some .PL
  | 0x6 => some .VS
  | 0x7 => some .VC
  | 0x8 => some .HI
  | 0x9 => some .LS
  | 0xA => some .GE
  | 0xB => some .LT
  | 0xC => some .GT
  | 0xD => some .LE
  | 0xE => some .AL
  | 0xF => some .Invalid
  | _ => none

/-! Program status register, from crates/arm7tdmi/src/psr.rs. -/

/-- A program status register: a raw 32-bit word. -/
structure Psr where
  raw : Nat
deriving DecidableEq

/-- Rust `Psr::mode`: `CpuMode::try_from(self.raw.bits::<0, 5>() as u8)`,
panicking (here: `none`) on an invalid 5-bit pattern via `invalid_cpu_mode`. -/
def Psr.mode (p : Psr) : Option CpuMode :=
  CpuMode.tryFrom (BitIndex.bits 32 0 5 p.raw)

/-- Rust `Psr::state`: `CpuState::from(self.raw.bit::<5>())`. -/
def Psr.state (p : Psr) : CpuState :=
  CpuState.ofBool (BitIndex.bit 5 p.raw)

/-- Rust `Psr::fiq_disabled`: bit 6. -/
def Psr.fiq_disabled (p : Psr) : Bool :=
  BitIndex.bit 6 p.raw

/-- Rust `Psr::irq_disabled`: bit 7. -/
def Psr.irq_disabled (p : Psr) : Bool :=
  BitIndex.bit 7 p.raw

/-- Rust `Psr::overflow` (V): bit 28. -/
def Psr.overflow (p : Psr) : Bool :=
  BitIndex.bit 28 p.raw

/-- Rust `Psr::carry` (C): bit 29. -/
def Psr.carry (p : Psr) : Bool :=
  BitIndex.bit 29 p.raw

/-- Rust `Psr::zero` (Z): bit 30. -/
def Psr.zero (p : Psr) : Bool :=
  BitIndex.bit 30 p.raw

/-- Rust `Psr::sign` (N): bit 31. -/
def Psr.sign (p : Psr) : Bool :=
  BitIndex.bit 31 p.raw

/-! Cartridge header parsing, from crates/cartridge/src/header.rs and
load.rs.  Byte slices are lists of naturals below 256. -/

/-- GBA cartridge header fields extracted by `CartridgeHeader::parse`;
the fixed-size `Ascii<N>` fields are modelled as the extracted byte lists. -/
structure CartridgeHeader where
  game_title : List Nat
  game_code : List Nat
  maker_code : List Nat
  software_version : Nat
  checksum : Nat
deriving DecidableEq

/-- Error for a ROM shorter than the 192-byte header. -/
inductive IncompleteHeaderError where
  | mk
deriving DecidableEq

/-- ROMs must have 192 bytes at a minimum (`HEADER_MIN_SIZE = 0xC0`). -/
def HEADER_MIN_SIZE : Nat := 0xC0

/-- One step of the checksum fold: `chk.wrapping_sub(b)` on `u8`. -/
def wrappingSub8 (a b : Nat) : Nat :=
  (a + (256 - b % 256)) % 256

/-- Rust `compute_checksum`: fold `wrapping_sub` over the bytes starting
from 0, then `wrapping_sub(0x19)`. -/
def compute_checksum (bytes : List Nat) : Nat :=
  wrappingSub8 (bytes.foldl wrappingSub8 0) 0x19

/-- The slice `bytes[0xA0..0xBD]` the checksum is computed over. -/
def checksumSlice (bytes : List Nat) : List Nat :=
  (bytes.drop 0xA0).take 0x1D

/-- Rust `CartridgeHeader::parse`: errors when the input is shorter than
192 bytes; otherwise extracts the fields at their fixed offsets.  The
checksum comparison in the source only emits a log warning and does not
affect the result, so it does not appear here. -/
def CartridgeHeader.parse (bytes : List Nat) :
    Except IncompleteHeaderError CartridgeHeader :=
  if bytes.length < HEADER_MIN_SIZE then
    .error .mk
  else
    .ok
      { game_title := (bytes.drop 0xA0).take 12
        game_code := (bytes.drop 0xAC).take 4
        maker_code := (bytes.drop 0xB0).take 2
        software_version := bytes.getD 0xBC 0
        checksum := bytes.getD 0xBD 0 }

/-- Error from `Cartridge::load_from_bytes`, wrapping the header error. -/
inductive LoadError where
  | HeaderError (e : IncompleteHeaderError)
deriving DecidableEq

/-- GBA cartridge: parsed header plus the raw ROM bytes. -/
structure Cartridge where
  header : CartridgeHeader
  rom : List Nat
deriving DecidableEq

/-- Rust `Cartridge::load_from_bytes`: parse the header, propagating its
error via the `From` conversion into `LoadError`. -/
def Cartridge.load_from_bytes (rom : List Nat) : Except LoadError Cartridge :=
  match CartridgeHeader.parse rom with
  | .error e => .error (.HeaderError e)
  | .ok header => .ok { header := header, rom := rom }

/-! Characterizations of the bit primitives by their test bits. -/

namespace BitIndex

theorem bits_testBit (w start stop x i : Nat) (h1 : start < stop) (h2 : stop ≤ w) :
    (bits w start stop x).testBit i
      = (decide (i < stop - start) && x.testBit (start + i)) := by
  simp only [bits, Nat.testBit_shiftRight, Nat.testBit_mod_two_pow, Nat.testBit_shiftLeft,
    ge_iff_le]
  by_cases hi : i < stop - start
  · have ha : w - stop + start + i < w := by omega
    have hb : w - stop ≤ w - stop + start + i := by omega
    have hc : w - stop + start + i - (w - stop) = start + i := by omega
    simp [ha, hb, hc, hi]
  · have ha : ¬ (w - stop + start + i < w) := by omega
    simp [ha, hi]

theorem bits_eq_shiftRight_mod (w start stop x : Nat) (h1 : start < stop) (h2 : stop ≤ w) :
    bits w start stop x = (x >>> start) % 2 ^ (stop - start) := by
  apply Nat.eq_of_testBit_eq
  intro i
  rw [bits_testBit w start stop x i h1 h2]
  simp [Nat.testBit_mod_two_pow, Nat.testBit_shiftRight]

theorem bits_lt (w start stop x : Nat) (h1 : start < stop) (h2 : stop ≤ w) :
    bits w start stop x < 2 ^ (stop - start) := by
  rw [bits_eq_shiftRight_mod w start stop x h1 h2]
  exact Nat.mod_lt _ (Nat.two_pow_pos _)

theorem set_bits_mask_testBit (w start stop i : Nat) (h1 : start < stop) (h2 : stop ≤ w) :
    (bits w start stop (2 ^ w - 1) <<< start).testBit i
      = decide (start ≤ i ∧ i < stop) := by
  simp only [Nat.testBit_shiftLeft, ge_iff_le, bits_testBit _ _ _ _ _ h1 h2,
    Nat.testBit_two_pow_sub_one]
  by_cases hs : start ≤ i
  · by_cases hi : i < stop
    · have ha : i - start < stop - start := by omega
      have hb : start + (i - start) < w := by omega
      have hc : i < w := by omega
      simp [hs, hi, ha, hb, hc]
    · have ha : ¬ (i - start < stop - start) := by omega
      simp [hs, hi, ha]
  · simp [hs]

theorem set_bits_testBit (w start stop x v i : Nat)
    (h1 : start < stop) (h2 : stop ≤ w) (hx : x < 2 ^ w) (hv : v < 2 ^ (stop - start)) :
    (set_bits w start stop x v).testBit i
      = if start ≤ i ∧ i < stop then v.testBit (i - start) else x.testBit i := by
  simp only [set_bits, Nat.testBit_or, Nat.testBit_and, Nat.testBit_xor,
    Nat.testBit_two_pow_sub_one, Nat.testBit_mod_two_pow, Nat.testBit_shiftLeft,
    set_bits_mask_testBit _ _ _ _ h1 h2, ge_iff_le]
  by_cases hin : start ≤ i ∧ i < stop
  · have hiw : i < w := by omega
    simp [hin, hiw, hin.1]
  · by_cases hiw : i < w
    · have hvb : (start ≤ i) → v.testBit (i - start) = false := by
        intro hs
        apply Nat.testBit_lt_two_pow
        calc v < 2 ^ (stop - start) := hv
          _ ≤ 2 ^ (i - start) := Nat.pow_le_pow_right (by omega) (by omega)
      by_cases hs : start ≤ i
      · simp [hin, hiw, hs, hvb hs, Bool.and_comm]
      · simp [hin, hiw, hs]
    · have hxb : x.testBit i = false := by
        apply Nat.testBit_lt_two_pow
        calc x < 2 ^ w := hx
          _ ≤ 2 ^ i := Nat.pow_le_pow_right (by omega) (by omega)
      simp [hin, hiw, hxb]

theorem set_bits_lt (w start stop x v : Nat) (hx : x < 2 ^ w) :
    set_bits w start stop x v < 2 ^ w := by
  apply Nat.or_lt_two_pow
  · exact Nat.lt_of_le_of_lt Nat.and_le_left hx
  · exact Nat.mod_lt _ (Nat.two_pow_pos _)

theorem bit_eq_testBit (i x : Nat) : bit i x = x.testBit i := by
  have hmask : x &&& (1 <<< i) = if x.testBit i then 2 ^ i else 0 := by
    apply Nat.eq_of_testBit_eq
    intro j
    rw [Nat.shiftLeft_eq, Nat.one_mul]
    by_cases hb : x.testBit i
    · simp only [Nat.testBit_and, Nat.testBit_two_pow, hb, if_pos hb]
      by_cases hij : i = j
      · simp [hij.symm ▸ hb, hij]
      · simp [hij, Ne.symm hij]
    · simp only [Nat.testBit_and, Nat.testBit_two_pow, if_neg hb, Nat.zero_testBit]
      by_cases hij : i = j
      · subst hij
        simp [hb]
      · simp [hij]
  rw [bit, hmask]
  by_cases hb : x.testBit i
  · simp [hb, Nat.pos_iff_ne_zero.mp (Nat.two_pow_pos i)]
  · simp [hb]

theorem set_bit_testBit (w i x : Nat) (v : Bool) (j : Nat)
    (hi : i < w) (hx : x < 2 ^ w) :
    (set_bit w i x v).testBit j = if j = i then v else x.testBit j := by
  have hone : (1 : Nat) <<< i = 2 ^ i := by rw [Nat.shiftLeft_eq, Nat.one_mul]
  cases v with
  | true =>
    simp only [set_bit, if_pos, hone, Nat.testBit_or, Nat.testBit_two_pow]
    by_cases hij : j = i
    · simp [hij]
    · simp [hij, Ne.symm hij]
  | false =>
    simp only [set_bit, if_neg, hone, Nat.testBit_and, Nat.testBit_xor,
      Nat.testBit_two_pow_sub_one, Nat.testBit_two_pow, Bool.false_eq_true]
    by_cases hij : j = i
    · subst hij
      simp [hi]
    · by_cases hjw : j < w
      · simp [hij, hjw, Ne.symm hij]
      · have hxb : x.testBit j = false := by
          apply Nat.testBit_lt_two_pow
          calc x < 2 ^ w := hx
            _ ≤ 2 ^ j := Nat.pow_le_pow_right (by omega) (by omega)
        simp [hij, hjw, hxb]

end BitIndex

/-! Claim theorems. -/

/-- C1: For every 32-bit word w, Psr.mode on a Psr with raw value w succeeds
and returns the corresponding CpuMode if and only if the low 5 bits of w are
one of the seven patterns 0b10000 (User), 0b10001 (FIQ), 0b10010 (IRQ),
0b10011 (Supervisor), 0b10111 (Abort), 0b11011 (Undefined), 0b11111 (System);
for every other 5-bit pattern it fails fatally (modelled as none). -/
theorem claim_C1_psr_mode_valid_patterns (w : Nat) (hw : w < 2 ^ 32) :
    ((Psr.mode ⟨w⟩).isSome ↔
      (w % 32 = 0b10000 ∨ w % 32 = 0b10001 ∨ w % 32 = 0b10010 ∨ w % 32 = 0b10011 ∨
       w % 32 = 0b10111 ∨ w % 32 = 0b11011 ∨ w % 32 = 0b11111)) ∧
    (∀ m, Psr.mode ⟨w⟩ = some m → CpuMode.toNat m = w % 32) := by
  have hbits : BitIndex.bits 32 0 5 w = w % 32 := by
    rw [BitIndex.bits_eq_shiftRight_mod 32 0 5 w (by norm_num) (by norm_num)]
    norm_num
  have key : ∀ p, p < 32 →
      (((CpuMode.tryFrom p).isSome ↔
        (p = 0b10000 ∨ p = 0b10001 ∨ p = 0b10010 ∨ p = 0b10011 ∨
         p = 0b10111 ∨ p = 0b11011 ∨ p = 0b11111)) ∧
       (∀ m, CpuMode.tryFrom p = some m → CpuMode.toNat m = p)) := by decide
  have h32 : w % 32 < 32 := Nat.mod_lt _ (by norm_num)
  have hk := key (w % 32) h32
  simpa [Psr.mode, hbits] using hk

/-- Witness for C1 at the concrete raw word 0x13 (mode pattern 0b10011). -/
theorem claim_C1_psr_mode_valid_patterns_witness :
    0x13 < 2 ^ 32 ∧
    (((Psr.mode ⟨0x13⟩).isSome ↔
      (0x13 % 32 = 0b10000 ∨ 0x13 % 32 = 0b10001 ∨ 0x13 % 32 = 0b10010 ∨
       0x13 % 32 = 0b10011 ∨ 0x13 % 32 = 0b10111 ∨ 0x13 % 32 = 0b11011 ∨
       0x13 % 32 = 0b11111)) ∧
     (∀ m, Psr.mode ⟨0x13⟩ = some m → CpuMode.toNat m = 0x13 % 32)) :=
  ⟨by norm_num, claim_C1_psr_mode_valid_patterns 0x13 (by norm_num)⟩

/-- C2: For every width w, every w-bit value x and every pair
start < stop ≤ w, writing back the extracted field is the identity:
set_bits start stop (bits start stop x) applied to x equals x.  This covers
each of the instantiating widths 8, 16, 32, 64 and 128. -/
theorem claim_C2_set_bits_bits_roundtrip (w start stop x : Nat)
    (h1 : start < stop) (h2 : stop ≤ w) (hx : x < 2 ^ w) :
    BitIndex.set_bits w start stop x (BitIndex.bits w start stop x) = x := by
  apply Nat.eq_of_testBit_eq
  intro i
  rw [BitIndex.set_bits_testBit w start stop x _ i h1 h2 hx
    (BitIndex.bits_lt w start stop x h1 h2)]
  by_cases hin : start ≤ i ∧ i < stop
  · rw [if_pos hin, BitIndex.bits_testBit w start stop x _ h1 h2]
    have ha : i - start < stop - start := by omega
    have hb : start + (i - start) = i := by omega
    simp [ha, hb]
  · rw [if_neg hin]

/-- Witness for C2 at width 8, field [1, 4), value 182. -/
theorem claim_C2_set_bits_bits_roundtrip_witness :
    1 < 4 ∧ 4 ≤ 8 ∧ 182 < 2 ^ 8 ∧
    BitIndex.set_bits 8 1 4 182 (BitIndex.bits 8 1 4 182) = 182 :=
  ⟨by decide, by decide, by decide,
    claim_C2_set_bits_bits_roundtrip 8 1 4 182 (by decide) (by decide) (by decide)⟩

/-- C3: For every w-bit value x, start < stop ≤ w and value v fitting in
stop - start bits, set_bits start stop v applied to x yields a w-bit word
whose bits in [start, stop) equal v right-aligned and whose bits outside
[start, stop) equal the corresponding bits of x. -/
theorem claim_C3_set_bits_frame (w start stop x v : Nat)
    (h1 : start < stop) (h2 : stop ≤ w) (hx : x < 2 ^ w)
    (hv : v < 2 ^ (stop - start)) :
    BitIndex.set_bits w start stop x v < 2 ^ w ∧
    (∀ i, start ≤ i → i < stop →
      (BitIndex.set_bits w start stop x v).testBit i = v.testBit (i - start)) ∧
    (∀ i, ¬(start ≤ i ∧ i < stop) →
      (BitIndex.set_bits w start stop x v).testBit i = x.testBit i) := by
  refine ⟨BitIndex.set_bits_lt w start stop x v hx, ?_, ?_⟩
  · intro i hs hi
    rw [BitIndex.set_bits_testBit w start stop x v i h1 h2 hx hv, if_pos ⟨hs, hi⟩]
  · intro i hni
    rw [BitIndex.set_bits_testBit w start stop x v i h1 h2 hx hv, if_neg hni]

/-- Witness for C3 at width 8, field [1, 4), x = 182, v = 5. -/
theorem claim_C3_set_bits_frame_witness :
    1 < 4 ∧ 4 ≤ 8 ∧ 182 < 2 ^ 8 ∧ 5 < 2 ^ (4 - 1) ∧
    (BitIndex.set_bits 8 1 4 182 5 < 2 ^ 8 ∧
     (∀ i, 1 ≤ i → i < 4 →
       (BitIndex.set_bits 8 1 4 182 5).testBit i = Nat.testBit 5 (i - 1)) ∧
     (∀ i, ¬(1 ≤ i ∧ i < 4) →
       (BitIndex.set_bits 8 1 4 182 5).testBit i = Nat.testBit 182 i)) :=
  ⟨by decide, by decide, by decide, by decide,
    claim_C3_set_bits_frame 8 1 4 182 5 (by decide) (by decide) (by decide) (by decide)⟩

/-- C4: For every w-bit value x and start < stop ≤ w, bits start stop applied
to x equals the field [start, stop) of x right-aligned:
(x >>> start) % 2 ^ (stop - start). -/
theorem claim_C4_bits_value (w start stop x : Nat)
    (h1 : start < stop) (h2 : stop ≤ w) (hx : x < 2 ^ w) :
    BitIndex.bits w start stop x = (x >>> start) % 2 ^ (stop - start) :=
  BitIndex.bits_eq_shiftRight_mod w start stop x h1 h2

/-- Witness for C4 at width 8, field [1, 4), x = 182. -/
theorem claim_C4_bits_value_witness :
    1 < 4 ∧ 4 ≤ 8 ∧ 182 < 2 ^ 8 ∧
    BitIndex.bits 8 1 4 182 = (182 >>> 1) % 2 ^ (4 - 1) :=
  ⟨by decide, by decide, by decide,
    claim_C4_bits_value 8 1 4 182 (by decide) (by decide) (by decide)⟩

/-- C5: The Psr with raw value 0x00000013 decodes as mode Supervisor, state
Arm, both interrupt-disable bits clear, and all four condition flags clear. -/
theorem claim_C5_psr_0x13_decode :
    Psr.mode ⟨0x13⟩ = some CpuMode.Supervisor ∧
    Psr.state ⟨0x13⟩ = CpuState.Arm ∧
    Psr.fiq_disabled ⟨0x13⟩ = false ∧
    Psr.irq_disabled ⟨0x13⟩ = false ∧
    Psr.overflow ⟨0x13⟩ = false ∧
    Psr.carry ⟨0x13⟩ = false ∧
    Psr.zero ⟨0x13⟩ = false ∧
    Psr.sign ⟨0x13⟩ = false := by
  decide

/-- C7: For every w-bit value x, bit index i < w and boolean v: bit i tests
exactly bit i of x, and set_bit i v sets bit i to v while leaving every
other bit of x unchanged. -/
theorem claim_C7_bit_set_bit (w i x : Nat) (v : Bool)
    (hi : i < w) (hx : x < 2 ^ w) :
    (BitIndex.bit i x = x.testBit i) ∧
    (BitIndex.set_bit w i x v).testBit i = v ∧
    (∀ j, j ≠ i → (BitIndex.set_bit w i x v).testBit j = x.testBit j) := by
  refine ⟨BitIndex.bit_eq_testBit i x, ?_, ?_⟩
  · rw [BitIndex.set_bit_testBit w i x v i hi hx, if_pos rfl]
  · intro j hj
    rw [BitIndex.set_bit_testBit w i x v j hi hx, if_neg hj]

/-- Witness for C7 at width 8, bit 3, x = 10, v = true. -/
theorem claim_C7_bit_set_bit_witness :
    3 < 8 ∧ 10 < 2 ^ 8 ∧
    ((BitIndex.bit 3 10 = Nat.testBit 10 3) ∧
     (BitIndex.set_bit 8 3 10 true).testBit 3 = true ∧
     (∀ j, j ≠ 3 → (BitIndex.set_bit 8 3 10 true).testBit j = Nat.testBit 10 j)) :=
  ⟨by decide, by decide, claim_C7_bit_set_bit 8 3 10 true (by decide) (by decide)⟩

/-- C8: CpuState.ofBool true is Thumb, CpuState.ofBool false is Arm, and the
conversion between CpuState and bool round-trips in both directions. -/
theorem claim_C8_cpustate_bool_roundtrip :
    CpuState.ofBool true = CpuState.Thumb ∧
    CpuState.ofBool false = CpuState.Arm ∧
    (∀ b, CpuState.toBool (CpuState.ofBool b) = b) ∧
    (∀ s, CpuState.ofBool (CpuState.toBool s) = s) := by
  decide

/-- C6: CartridgeHeader.parse returns a recoverable IncompleteHeaderError
exactly when the input is shorter than 192 bytes and returns Ok otherwise
(never a panic: it is a total function), and Cartridge.load_from_bytes
propagates that same error as a LoadError. -/
theorem claim_C6_parse_truncated_rom (bytes : List Nat) :
    ((CartridgeHeader.parse bytes).isOk ↔ HEADER_MIN_SIZE ≤ bytes.length) ∧
    (bytes.length < HEADER_MIN_SIZE →
      CartridgeHeader.parse bytes = .error IncompleteHeaderError.mk ∧
      Cartridge.load_from_bytes bytes
        = .error (LoadError.HeaderError IncompleteHeaderError.mk)) ∧
    (∀ h, CartridgeHeader.parse bytes = .ok h →
      Cartridge.load_from_bytes bytes = .ok { header := h, rom := bytes }) := by
  by_cases hlen : bytes.length < HEADER_MIN_SIZE
  · refine ⟨?_, fun _ => ?_, ?_⟩
    · simp only [CartridgeHeader.parse, if_pos hlen]
      simp [Except.isOk, Except.toBool]
      omega
    · constructor
      · simp only [CartridgeHeader.parse, if_pos hlen]
      · simp only [Cartridge.load_from_bytes, CartridgeHeader.parse, if_pos hlen]
    · intro h hh
      simp only [CartridgeHeader.parse, if_pos hlen] at hh
      cases hh
  · refine ⟨?_, fun hcon => absurd hcon hlen, ?_⟩
    · simp only [CartridgeHeader.parse, if_neg hlen]
      simp [Except.isOk, Except.toBool]
      omega
    · intro h hh
      simp only [Cartridge.load_from_bytes, hh]

/-- Witness for C6 at a 10-byte input (truncated) instantiation. -/
theorem claim_C6_parse_truncated_rom_witness :
    (((CartridgeHeader.parse (List.replicate 10 0)).isOk ↔
       HEADER_MIN_SIZE ≤ (List.replicate 10 (0 : Nat)).length) ∧
     ((List.replicate 10 (0 : Nat)).length < HEADER_MIN_SIZE →
       CartridgeHeader.parse (List.replicate 10 0) = .error IncompleteHeaderError.mk ∧
       Cartridge.load_from_bytes (List.replicate 10 0)
         = .error (LoadError.HeaderError IncompleteHeaderError.mk)) ∧
     (∀ h, CartridgeHeader.parse (List.replicate 10 0) = .ok h →
       Cartridge.load_from_bytes (List.replicate 10 0)
         = .ok { header := h, rom := List.replicate 10 0 })) :=
  claim_C6_parse_truncated_rom (List.replicate 10 0)

/-- C9: For every input of at least 192 bytes, parse returns Ok even when the
stored checksum byte at offset 0xBD differs from the checksum computed over
bytes 0xA0..0xBD, and the checksum field of the returned header is the raw
byte at offset 0xBD of the input, not the recomputed value. -/
theorem claim_C9_checksum_not_validated (bytes : List Nat)
    (hlen : HEADER_MIN_SIZE ≤ bytes.length) :
    (CartridgeHeader.parse bytes).isOk ∧
    (bytes.getD 0xBD 0 ≠ compute_checksum (checksumSlice bytes) →
      (CartridgeHeader.parse bytes).isOk) ∧
    (∀ h, CartridgeHeader.parse bytes = .ok h →
      h.checksum = bytes.getD 0xBD 0) := by
  have hnot : ¬ bytes.length < HEADER_MIN_SIZE := by omega
  refine ⟨?_, fun _ => ?_, ?_⟩
  · simp only [CartridgeHeader.parse, if_neg hnot]
    simp [Except.isOk, Except.toBool]
  · simp only [CartridgeHeader.parse, if_neg hnot]
    simp [Except.isOk, Except.toBool]
  · intro h hh
    simp only [CartridgeHeader.parse, if_neg hnot] at hh
    cases hh
    rfl

set_option maxRecDepth 4000 in
/-- Witness for C9 at the all-zero 192-byte input, whose stored checksum 0x00
differs from the computed checksum 0xE7. -/
theorem claim_C9_checksum_not_validated_witness :
    HEADER_MIN_SIZE ≤ (List.replicate 192 (0 : Nat)).length ∧
    (List.replicate 192 (0 : Nat)).getD 0xBD 0
      ≠ compute_checksum (checksumSlice (List.replicate 192 0)) ∧
    ((CartridgeHeader.parse (List.replicate 192 0)).isOk ∧
     ((List.replicate 192 (0 : Nat)).getD 0xBD 0
        ≠ compute_checksum (checksumSlice (List.replicate 192 0)) →
       (CartridgeHeader.parse (List.replicate 192 0)).isOk) ∧
     (∀ h, CartridgeHeader.parse (List.replicate 192 0) = .ok h →
       h.checksum = (List.replicate 192 (0 : Nat)).getD 0xBD 0)) :=
  ⟨by decide, by decide, claim_C9_checksum_not_validated (List.replicate 192 0) (by decide)⟩

set_option maxRecDepth 4000 in
/-- C10: Cond decode succeeds for each of the 16 values 0x0 to 0xF (with 0xF
mapped to the distinct Invalid variant rather than a decode failure), fails
for every byte above 0xF, and encoding each variant and decoding it back
round-trips. -/
theorem claim_C10_cond_total_no_gaps (n : Nat) (c : Cond) (hn : n < 256) :
    ((Cond.tryFrom n).isSome ↔ n < 16) ∧
    Cond.tryFrom 0xF = some Cond.Invalid ∧
    Cond.tryFrom (Cond.toNat c) = some c := by
  have key : ∀ m, m < 256 → ((Cond.tryFrom m).isSome ↔ m < 16) := by decide
  have key2 : ∀ d : Cond, Cond.tryFrom (Cond.toNat d) = some d := by decide
  exact ⟨key n hn, by decide, key2 c⟩

/-- Witness for C10 at n = 0x20 (decode fails) and the EQ variant. -/
theorem claim_C10_cond_total_no_gaps_witness :
    0x20 < 256 ∧
    (((Cond.tryFrom 0x20).isSome ↔ 0x20 < 16) ∧
     Cond.tryFrom 0xF = some Cond.Invalid ∧
     Cond.tryFrom (Cond.toNat Cond.EQ) = some Cond.EQ) :=
  ⟨by decide, claim_C10_cond_total_no_gaps 0x20 Cond.EQ (by decide)⟩

end Rba
